import Mathlib

/-!
# regdump: the /dev/mem window mapper and its command loop

A shallow embedding of `c_src/regdump.c`.

Conventions of the embedding.

* `off_t` values and the fields of `struct Command` are natural numbers.  The
  only `off_t` values the program ever holds are `0` and values derived from the
  32-bit `address` field, so `off_t` is taken wide enough to hold them and
  `unsigned long` is 64 bits wide (`ULONG_MAX`).
* A pointer (`void *`) is an integer; `MAP_FAILED` is `(void *) -1`.  Pointer
  arithmetic is plain integer addition.
* The kernel is part of the state (`World`): the list of live mappings of the
  process, physical memory as a function from physical address to byte, the bytes
  pending on standard input, the bytes already written to standard output, and the
  answers the kernel will give to `open`, `mmap` and `write`.
* Every `mmap`, `munmap`, load and store that is performed is appended to
  `World.trace`.
* A load or store through a pointer that no live mapping covers has no defined
  behaviour in C; it is the outcome `Outcome.fault`.
* Multi-byte loads and stores are little-endian (the byte order of the hosts the
  program is deployed on); no result below depends on the order.
* Diagnostics printed on standard error are not modelled, and neither is
  `devmem_close`, which `main` calls only after its endless loop.
-/

namespace Regdump

/-! ## Constants -/

/-- The operation code of a read command (`COMMAND_READ`). -/
def COMMAND_READ : Nat := 0

/-- The operation code of a write command (`COMMAND_WRITE`). -/
def COMMAND_WRITE : Nat := 1

/-- The size of one mapping window (`DEVMEM_WINDOW_SIZE`, 4096UL). -/
def DEVMEM_WINDOW_SIZE : Nat := 4096

/-- The mask of the offset inside a window (`DEVMEM_WINDOW_SIZE - 1`). -/
def DEVMEM_WINDOW_MASK : Nat := DEVMEM_WINDOW_SIZE - 1

/-- The largest `unsigned long`; `ULONG_MAX - x` is the C expression `~x`. -/
def ULONG_MAX : Nat := 2 ^ 64 - 1

/-- The pointer `(void *) -1` returned by a failed `mmap`. -/
def MAP_FAILED : Int := -1

/-- The exit status `EXIT_FAILURE`. -/
def EXIT_FAILURE : Nat := 1

/-- The value of `sizeof(struct Command)`: the structure is packed. -/
def SIZEOF_COMMAND : Nat := 10

/-- The value of `sizeof(struct Response)`. -/
def SIZEOF_RESPONSE : Nat := 4

/-! ## Data -/

/-- The record `struct Command` (packed: 1 + 1 + 4 + 4 bytes). -/
structure Command where
  command : Nat
  width : Nat
  address : Nat
  value : Nat
deriving DecidableEq, Repr

/-- The record `struct Response`. -/
structure Response where
  value : Nat
deriving DecidableEq, Repr

/-- One live mapping of the process: 4096 bytes of virtual address space starting at
`start`, backed by physical memory starting at `offset`. -/
structure Mapping where
  start : Int
  offset : Nat
deriving DecidableEq, Repr

/-- The observable actions on memory: system calls and typed accesses. -/
inductive Event where
  | mmap (offset : Nat) (result : Int)
  | munmap (addr : Int)
  | load (addr : Int) (nbytes : Nat)
  | store (addr : Int) (nbytes : Nat) (value : Nat)
deriving DecidableEq, Repr

/-- What the next `read(0, ...)` finds on standard input: an error, or some bytes
(no bytes at all is the end of the stream). -/
inductive Chunk where
  | error
  | data (bytes : List Nat)
deriving DecidableEq, Repr

/-- The state of the process and of the kernel objects it uses. -/
structure World where
  /-- The global `devmem_fd`. -/
  devmem_fd : Int
  /-- The global `devmem_map_base`. -/
  devmem_map_base : Int
  /-- The global `devmem_current`. -/
  devmem_current : Nat
  /-- The live mappings of the process. -/
  live : List Mapping
  /-- Physical memory, byte by byte. -/
  phys : Nat → Nat
  /-- Every map, unmap, load and store performed so far, oldest first. -/
  trace : List Event
  /-- What standard input will deliver, one entry per arrival. -/
  stdin : List Chunk
  /-- The bytes written to standard output so far. -/
  stdout : List Nat
  /-- The result of opening the memory device. -/
  open_result : Int
  /-- The answer of the kernel to the n-th `mmap` at a given offset: the page
  number of the region it picks, or nothing when it refuses. -/
  mmap_grant : Nat → Nat → Option Nat
  /-- The number of `mmap` calls made so far. -/
  mmap_calls : Nat
  /-- The results of the coming `write(1, ...)` calls: a count not above zero is
  returned as it is, a positive count is the number of bytes accepted (at most the
  number offered); when the list is used up every write accepts all bytes. -/
  write_results : List Int

/-- How a call ends: it returns a value, the process exits with a status, or the
process makes an access no mapping covers. -/
inductive Outcome (α : Type) where
  | ret (val : α) (w : World)
  | exit (status : Nat) (w : World)
  | fault (w : World)

/-- The state in which a call ended. -/
def Outcome.world {α : Type} : Outcome α → World
  | .ret _ w => w
  | .exit _ w => w
  | .fault w => w

/-- The exit status, when the call ended the process through `exit`. -/
def Outcome.status {α : Type} : Outcome α → Option Nat
  | .ret _ _ => none
  | .exit s _ => some s
  | .fault _ => none

/-- The returned value, when the call returned. -/
def Outcome.value {α : Type} : Outcome α → Option α
  | .ret v _ => some v
  | .exit _ _ => none
  | .fault _ => none

/-- Whether the call ended in an access outside every mapping. -/
def Outcome.isFault {α : Type} : Outcome α → Bool
  | .fault _ => true
  | _ => false

/-! ## The kernel -/

/-- The system call `mmap(0, 4096, PROT_READ | PROT_WRITE, MAP_SHARED, fd, offset)`:
the kernel either refuses (`MAP_FAILED`) or picks a page and makes it a live mapping
of the physical window at `offset`. -/
def sys_mmap (offset : Nat) (w : World) : Int × World :=
  match w.mmap_grant w.mmap_calls offset with
  | none =>
    (MAP_FAILED,
      { w with mmap_calls := w.mmap_calls + 1,
               trace := w.trace ++ [Event.mmap offset MAP_FAILED] })
  | some page =>
    ((4096 * page : Nat),
      { w with mmap_calls := w.mmap_calls + 1,
               live := ⟨(4096 * page : Nat), offset⟩ :: w.live,
               trace := w.trace ++ [Event.mmap offset (4096 * page : Nat)] })

/-- The system call `munmap(addr, 4096)`: the mapping that starts at `addr` is
gone. -/
def sys_munmap (addr : Int) (w : World) : World :=
  { w with live := w.live.filter (fun m => decide (m.start ≠ addr)),
           trace := w.trace ++ [Event.munmap addr] }

/-- The physical address behind a virtual one, when a live mapping covers it. -/
def translate (live : List Mapping) (p : Int) : Option Nat :=
  match live.find? (fun m => decide (m.start ≤ p ∧ p < m.start + 4096)) with
  | none => none
  | some m => some (m.offset + (p - m.start).toNat)

/-- The physical addresses behind `n` consecutive virtual ones, when all of them are
covered. -/
def translateRange (live : List Mapping) (p : Int) : Nat → Option (List Nat)
  | 0 => some []
  | n + 1 =>
    match translate live p, translateRange live (p + 1) n with
    | some a, some rest => some (a :: rest)
    | _, _ => none

/-- The little-endian value of the bytes at the given physical addresses. -/
def peekLE (phys : Nat → Nat) : List Nat → Nat
  | [] => 0
  | a :: rest => phys a % 256 + 256 * peekLE phys rest

/-- Physical memory after a little-endian store of `v` at the given addresses. -/
def pokeLE (phys : Nat → Nat) : List Nat → Nat → Nat → Nat
  | [], _ => phys
  | a :: rest, v => pokeLE (Function.update phys a (v % 256)) rest (v / 256)

/-- A typed load `*((uintN_t *) p)` of `nbytes` bytes. -/
def load (p : Int) (nbytes : Nat) (w : World) : Outcome Nat :=
  match translateRange w.live p nbytes with
  | none => .fault w
  | some addrs => .ret (peekLE w.phys addrs) { w with trace := w.trace ++ [Event.load p nbytes] }

/-- A typed store `*((uintN_t *) p) = v` of `nbytes` bytes. -/
def store (p : Int) (nbytes : Nat) (v : Nat) (w : World) : Outcome Unit :=
  match translateRange w.live p nbytes with
  | none => .fault w
  | some addrs =>
    .ret () { w with phys := pokeLE w.phys addrs v,
                     trace := w.trace ++ [Event.store p nbytes v] }

/-- The system call `read(0, buffer, n)`: the count returned, the bytes placed in
the buffer, and the state afterwards.  The count is negative on an error, zero at
the end of the stream, and otherwise between 1 and `n`. -/
def sys_read (n : Nat) (w : World) : Int × List Nat × World :=
  match w.stdin with
  | [] => (0, [], w)
  | Chunk.error :: rest => (-1, [], { w with stdin := rest })
  | Chunk.data bytes :: rest =>
    if bytes.length ≤ n then
      ((bytes.length : Nat), bytes, { w with stdin := rest })
    else
      ((n : Nat), bytes.take n, { w with stdin := Chunk.data (bytes.drop n) :: rest })

/-- The system call `write(1, buffer, n)` with `buffer` holding the `n` bytes: the
count returned and the state afterwards. -/
def sys_write (buffer : List Nat) (w : World) : Int × World :=
  match w.write_results with
  | [] => ((buffer.length : Nat), { w with stdout := w.stdout ++ buffer })
  | k :: rest =>
    if k ≤ 0 then (k, { w with write_results := rest })
    else
      ((min k.toNat buffer.length : Nat),
        { w with stdout := w.stdout ++ buffer.take (min k.toNat buffer.length),
                 write_results := rest })

/-! ## The program -/

/-- The function `devmem_open`. -/
def devmem_open (w : World) : Outcome Unit :=
  let w1 := { w with devmem_fd := w.open_result }
  if w1.devmem_fd < 0 then .exit EXIT_FAILURE w1
  else .ret () { w1 with devmem_map_base := MAP_FAILED, devmem_current := 0 }

/-- The function `devmem_update`. -/
def devmem_update (address : Nat) (w : World) : Outcome Int :=
  let base := address &&& (ULONG_MAX - DEVMEM_WINDOW_MASK)
  if base ≠ w.devmem_current then
    let w1 := if w.devmem_map_base ≠ MAP_FAILED then sys_munmap w.devmem_map_base w else w
    let r := sys_mmap base w1
    let w2 := { r.2 with devmem_map_base := r.1 }
    if w2.devmem_map_base = MAP_FAILED then .exit EXIT_FAILURE w2
    else
      let w3 := { w2 with devmem_current := base }
      .ret (w3.devmem_map_base + ((address &&& DEVMEM_WINDOW_MASK : Nat) : Int)) w3
  else
    .ret (w.devmem_map_base + ((address &&& DEVMEM_WINDOW_MASK : Nat) : Int)) w

/-- The function `devmem_read`. -/
def devmem_read (address : Nat) (width : Nat) (w : World) : Outcome Nat :=
  match devmem_update address w with
  | .ret virt_addr w1 =>
    if width = 8 then load virt_addr 1 w1
    else if width = 16 then load virt_addr 2 w1
    else if width = 32 then load virt_addr 4 w1
    else .exit EXIT_FAILURE w1
  | .exit s w1 => .exit s w1
  | .fault w1 => .fault w1

/-- The function `devmem_write`. -/
def devmem_write (address : Nat) (width : Nat) (value : Nat) (w : World) : Outcome Unit :=
  match devmem_update address w with
  | .ret virt_addr w1 =>
    if width = 8 then store virt_addr 1 (value % 2 ^ 8) w1
    else if width = 16 then store virt_addr 2 (value % 2 ^ 16) w1
    else if width = 32 then store virt_addr 4 value w1
    else .exit EXIT_FAILURE w1
  | .exit s w1 => .exit s w1
  | .fault w1 => .fault w1

/-- The loop of `get_command`: `toread` bytes are still missing, `buffer` holds the
bytes received so far.  `fuel` bounds the number of iterations; `none` means the
bound was reached. -/
def get_command_loop : Nat → Nat → List Nat → World → Option (Outcome (List Nat))
  | _, 0, buffer, w => some (.ret buffer w)
  | 0, _ + 1, _, _ => none
  | fuel + 1, toread + 1, buffer, w =>
    let r := sys_read (toread + 1) w
    if r.1 < 0 then some (.exit EXIT_FAILURE r.2.2)
    else if r.1 = 0 then some (.exit EXIT_FAILURE r.2.2)
    else get_command_loop fuel (toread + 1 - r.1.toNat) (buffer ++ r.2.1) r.2.2

/-- The little-endian value of a list of bytes. -/
def leValue : List Nat → Nat
  | [] => 0
  | b :: rest => b + 256 * leValue rest

/-- The `n` bytes of the little-endian representation of `v`. -/
def leBytes : Nat → Nat → List Nat
  | 0, _ => []
  | n + 1, v => v % 256 :: leBytes n (v / 256)

/-- The record `struct Command` read off the 10 bytes it occupies: `command` at
offset 0, `width` at 1, `address` at 2 to 5, `value` at 6 to 9. -/
def Command.ofBytes (b : List Nat) : Command :=
  { command := b.getD 0 0,
    width := b.getD 1 0,
    address := leValue ((b.drop 2).take 4),
    value := leValue ((b.drop 6).take 4) }

/-- The 10 bytes a `struct Command` occupies. -/
def Command.toBytes (c : Command) : List Nat :=
  [c.command, c.width] ++ leBytes 4 c.address ++ leBytes 4 c.value

/-- The function `get_command`: `sizeof(struct Command)` bytes are read into the
record. -/
def get_command (w : World) : Option (Outcome Command) :=
  match get_command_loop SIZEOF_COMMAND SIZEOF_COMMAND [] w with
  | none => none
  | some (.ret buffer w1) => some (.ret (Command.ofBytes buffer) w1)
  | some (.exit s w1) => some (.exit s w1)
  | some (.fault w1) => some (.fault w1)

/-- The loop of `send_response`: `buffer` holds the bytes still to be written
(`towrite` is its length). -/
def send_response_loop : Nat → List Nat → World → Option (Outcome Unit)
  | _, [], w => some (.ret () w)
  | 0, _ :: _, _ => none
  | fuel + 1, b :: rest, w =>
    let r := sys_write (b :: rest) w
    if r.1 ≤ 0 then some (.exit EXIT_FAILURE r.2)
    else send_response_loop fuel ((b :: rest).drop r.1.toNat) r.2

/-- The function `send_response`. -/
def send_response (resp : Response) (w : World) : Option (Outcome Unit) :=
  send_response_loop SIZEOF_RESPONSE (leBytes SIZEOF_RESPONSE resp.value) w

/-- The `switch (cmd.command)` of `main`: one command is carried out. -/
def dispatch (cmd : Command) (w : World) : Option (Outcome Unit) :=
  if cmd.command = COMMAND_READ then
    match devmem_read cmd.address cmd.width w with
    | .ret v w1 => send_response { value := v } w1
    | .exit s w1 => some (.exit s w1)
    | .fault w1 => some (.fault w1)
  else if cmd.command = COMMAND_WRITE then
    some (devmem_write cmd.address cmd.width cmd.value w)
  else
    some (.exit EXIT_FAILURE w)

/-- The loop `for (;;)` of `main`, at most `fuel` iterations; `none` means the bound
was reached.  The loop has no way out but the end of the process. -/
def main_loop : Nat → World → Option (Outcome Unit)
  | 0, _ => none
  | fuel + 1, w =>
    match get_command w with
    | none => none
    | some (.ret cmd w1) =>
      match dispatch cmd w1 with
      | some (.ret _ w2) => main_loop fuel w2
      | other => other
    | some (.exit s w1) => some (.exit s w1)
    | some (.fault w1) => some (.fault w1)

/-- The function `main`. -/
def main (fuel : Nat) (w : World) : Option (Outcome Unit) :=
  match devmem_open w with
  | .ret _ w1 => main_loop fuel w1
  | .exit s w1 => some (.exit s w1)
  | .fault w1 => some (.fault w1)

/-! ## States of the mapper, inputs, and the behaviour the specification describes -/

/-- The state `devmem_open` leaves: no window recorded as mapped, none live. -/
def Fresh (w : World) : Prop :=
  w.devmem_map_base = MAP_FAILED ∧ w.devmem_current = 0 ∧ w.live = []

/-- The state after a window was mapped: the only live mapping is the one the
globals describe. -/
def Live (w : World) : Prop :=
  w.devmem_map_base ≠ MAP_FAILED ∧ w.live = [⟨w.devmem_map_base, w.devmem_current⟩]

instance (w : World) : Decidable (Fresh w) := by unfold Fresh; infer_instance

instance (w : World) : Decidable (Live w) := by unfold Live; infer_instance

/-- Whether an event is a change of the mappings (`mmap` or `munmap`). -/
def Event.isMapping : Event → Bool
  | .mmap _ _ => true
  | .munmap _ => true
  | _ => false

/-- Everything but the mapper is the same in both states: physical memory, both
streams and the answers of the kernel. -/
def SameEnv (w w1 : World) : Prop :=
  w1.phys = w.phys ∧ w1.stdin = w.stdin ∧ w1.stdout = w.stdout ∧
    w1.write_results = w.write_results ∧ w1.mmap_grant = w.mmap_grant

/-- A process at its start, before `main` runs: nothing is mapped, nothing was
written, the memory device can be opened, the kernel grants every mapping (the
n-th one at page 16 + n), standard output takes whatever it is given, and the byte
at physical address `a` holds `a % 256`. -/
def startWorld (input : List Chunk) : World :=
  { devmem_fd := 0, devmem_map_base := 0, devmem_current := 0, live := [],
    phys := fun a => a % 256, trace := [], stdin := input, stdout := [],
    open_result := 3, mmap_grant := fun n _ => some (16 + n), mmap_calls := 0,
    write_results := [] }

/-- The state `devmem_open` leaves when run at the start of a process. -/
def openedWorld : World := (devmem_open (startWorld [])).world

/-- Resolving a list of addresses with `devmem_update`, one after the other, until
the process ends; the locations returned, in order. -/
def resolve_all : List Nat → World → Outcome (List Int)
  | [], w => .ret [] w
  | a :: rest, w =>
    match devmem_update a w with
    | .ret p w1 =>
      match resolve_all rest w1 with
      | .ret ps w2 => .ret (p :: ps) w2
      | .exit s w2 => .exit s w2
      | .fault w2 => .fault w2
    | .exit s w1 => .exit s w1
    | .fault w1 => .fault w1

/-- The number of windows mapped in a trace: its successful `mmap` calls. -/
def mmap_count : List Event → Nat
  | [] => 0
  | Event.mmap _ r :: rest => (if r = MAP_FAILED then 0 else 1) + mmap_count rest
  | _ :: rest => mmap_count rest

/-- The bytes standard input delivers before the first read that returns zero or a
negative count: the contents of the chunks up to the first error or empty one. -/
def delivered : List Chunk → List Nat
  | [] => []
  | Chunk.error :: _ => []
  | Chunk.data [] :: _ => []
  | Chunk.data (b :: bs) :: rest => (b :: bs) ++ delivered rest

/-- The bytes of a sequence of commands on the wire, one 10-byte record after the
other. -/
def encode : List Command → List Nat
  | [] => []
  | c :: rest => c.toBytes ++ encode rest

/-- A command the protocol allows: operation 0 or 1, width 8, 16 or 32, and address
and value that fit their 32-bit fields. -/
def Command.valid (c : Command) : Prop :=
  (c.command = COMMAND_READ ∨ c.command = COMMAND_WRITE) ∧
    (c.width = 8 ∨ c.width = 16 ∨ c.width = 32) ∧ c.address < 2 ^ 32 ∧ c.value < 2 ^ 32

/-- The bytes the command accesses lie in one window: the access does not run past
the end of the 4096-byte window of its address. -/
def Command.inWindow (c : Command) : Prop :=
  c.address % 4096 + c.width / 8 ≤ 4096

instance (c : Command) : Decidable c.valid := by unfold Command.valid; infer_instance

instance (c : Command) : Decidable c.inWindow := by unfold Command.inWindow; infer_instance

/-- The value the specification asks a read of `width` bits at `address` to give: the
bytes of flat physical memory at the address, zero-extended. -/
def spec_load (mem : Nat → Nat) (address width : Nat) : Nat :=
  peekLE mem (List.range' address (width / 8))

/-- Flat physical memory after the store the specification asks a write for: `value`
truncated to `width` bits, at `address`. -/
def spec_store (mem : Nat → Nat) (address width value : Nat) : Nat → Nat :=
  pokeLE mem (List.range' address (width / 8)) (value % 2 ^ width)

/-- The output the specification asks for: in command order, one 4-byte response per
read command holding the value loaded, and nothing for a write command. -/
def spec_output (mem : Nat → Nat) : List Command → List Nat
  | [] => []
  | c :: rest =>
    if c.command = COMMAND_READ then
      leBytes SIZEOF_RESPONSE (spec_load mem c.address c.width) ++ spec_output mem rest
    else
      spec_output (spec_store mem c.address c.width c.value) rest

/-- The effect of one event on the starts of the mapped regions. -/
def liveStep (acc : List Int) : Event → List Int
  | .mmap _ r => if r = MAP_FAILED then acc else r :: acc
  | .munmap a => acc.filter (fun s => decide (s ≠ a))
  | _ => acc

/-- The starts of the regions that are mapped after the events of a trace, in a
process that began without mappings. -/
def liveAfter (t : List Event) : List Int :=
  t.foldl liveStep []

/-- The trace accounts for the live mappings, the globals describe them, and at no
point of the trace was more than one region mapped. -/
def Tracked (w : World) : Prop :=
  liveAfter w.trace = w.live.map Mapping.start ∧ (Fresh w ∨ Live w) ∧
    ∀ n, (liveAfter (w.trace.take n)).length ≤ 1

/-! ## Lemmas and theorems -/

/-! ### The two masks -/

theorem land_window_mask (a : Nat) : a &&& DEVMEM_WINDOW_MASK = a % 4096 := by
  have h := Nat.and_pow_two_sub_one_eq_mod a 12
  simpa [DEVMEM_WINDOW_MASK, DEVMEM_WINDOW_SIZE] using h

theorem land_not_window_mask (a : Nat) (h : a < 2 ^ 64) :
    a &&& (ULONG_MAX - DEVMEM_WINDOW_MASK) = 4096 * (a / 4096) := by
  have e1 : ULONG_MAX - DEVMEM_WINDOW_MASK = (2 ^ 52 - 1) <<< 12 := by decide
  have e2 : 4096 * (a / 4096) = (a >>> 12) <<< 12 := by
    rw [Nat.shiftLeft_eq, Nat.shiftRight_eq_div_pow]; ring
  rw [e1, e2]
  apply Nat.eq_of_testBit_eq
  intro i
  rw [Nat.testBit_and, Nat.testBit_shiftLeft, Nat.testBit_shiftLeft, Nat.testBit_two_pow_sub_one,
    Nat.testBit_shiftRight]
  by_cases hi : 12 ≤ i
  · have h12 : 12 + (i - 12) = i := by omega
    simp only [ge_iff_le, hi, decide_True, Bool.true_and, h12]
    by_cases h2 : i - 12 < 52
    · simp [h2]
    · have : a.testBit i = false := by
        apply Nat.testBit_eq_false_of_lt
        calc a < 2 ^ 64 := h
          _ ≤ 2 ^ i := Nat.pow_le_pow_right (by decide) (by omega)
      simp [h2, this]
  · simp [hi]

/-! ### The cases of `devmem_update` -/

theorem window_base_eq (a : Nat) (h : a < 2 ^ 32) :
    a &&& (ULONG_MAX - DEVMEM_WINDOW_MASK) = 4096 * (a / 4096) :=
  land_not_window_mask a (lt_trans h (by decide))

theorem devmem_open_fresh (w w' : World) (hl : w.live = [])
    (h : devmem_open w = .ret () w') : Fresh w' := by
  unfold devmem_open at h
  simp only at h
  split at h
  · cases h
  · cases h
    exact ⟨rfl, rfl, hl⟩

theorem update_reuse (a : Nat) (w : World)
    (hb : a &&& (ULONG_MAX - DEVMEM_WINDOW_MASK) = w.devmem_current) :
    devmem_update a w = .ret (w.devmem_map_base + ((a % 4096 : Nat) : Int)) w := by
  unfold devmem_update
  simp [hb, land_window_mask]

theorem update_remap_live (a pg : Nat) (w : World) (hw : Live w)
    (hb : a &&& (ULONG_MAX - DEVMEM_WINDOW_MASK) ≠ w.devmem_current)
    (hg : w.mmap_grant w.mmap_calls (a &&& (ULONG_MAX - DEVMEM_WINDOW_MASK)) = some pg) :
    devmem_update a w = .ret (((4096 * pg : Nat) : Int) + ((a % 4096 : Nat) : Int))
      { w with devmem_map_base := ((4096 * pg : Nat) : Int),
               devmem_current := a &&& (ULONG_MAX - DEVMEM_WINDOW_MASK),
               live := [⟨((4096 * pg : Nat) : Int), a &&& (ULONG_MAX - DEVMEM_WINDOW_MASK)⟩],
               mmap_calls := w.mmap_calls + 1,
               trace := w.trace ++ [Event.munmap w.devmem_map_base] ++
                 [Event.mmap (a &&& (ULONG_MAX - DEVMEM_WINDOW_MASK)) ((4096 * pg : Nat) : Int)] } := by
  obtain ⟨h1, h2⟩ := hw
  have hne : ¬ (4096 * (pg : Int) = MAP_FAILED) := by unfold MAP_FAILED; omega
  unfold devmem_update
  simp [hb, h1, sys_munmap, sys_mmap, hg, h2, land_window_mask, hne]

theorem update_remap_fresh (a pg : Nat) (w : World) (hw : Fresh w)
    (hb : a &&& (ULONG_MAX - DEVMEM_WINDOW_MASK) ≠ w.devmem_current)
    (hg : w.mmap_grant w.mmap_calls (a &&& (ULONG_MAX - DEVMEM_WINDOW_MASK)) = some pg) :
    devmem_update a w = .ret (((4096 * pg : Nat) : Int) + ((a % 4096 : Nat) : Int))
      { w with devmem_map_base := ((4096 * pg : Nat) : Int),
               devmem_current := a &&& (ULONG_MAX - DEVMEM_WINDOW_MASK),
               live := [⟨((4096 * pg : Nat) : Int), a &&& (ULONG_MAX - DEVMEM_WINDOW_MASK)⟩],
               mmap_calls := w.mmap_calls + 1,
               trace := w.trace ++
                 [Event.mmap (a &&& (ULONG_MAX - DEVMEM_WINDOW_MASK)) ((4096 * pg : Nat) : Int)] } := by
  obtain ⟨h1, h2, h3⟩ := hw
  have hne : ¬ (4096 * (pg : Int) = MAP_FAILED) := by unfold MAP_FAILED; omega
  unfold devmem_update
  simp [hb, h1, sys_mmap, hg, h3, land_window_mask, hne]

/-! ### Address translation, loads and stores -/

theorem translate_single (r : Int) (b : Nat) (p : Int) (h1 : r ≤ p) (h2 : p < r + 4096) :
    translate [⟨r, b⟩] p = some (b + (p - r).toNat) := by
  simp [translate, List.find?, h1, h2]

theorem translateRange_single (r : Int) (b : Nat) (n : Nat) :
    ∀ k : Nat, k + n ≤ 4096 →
      translateRange [⟨r, b⟩] (r + (k : Int)) n = some (List.range' (b + k) n) := by
  induction n with
  | zero => intro k _; simp [translateRange]
  | succ n ih =>
    intro k hk
    have h1 : r ≤ r + (k : Int) := by omega
    have h2 : r + (k : Int) < r + 4096 := by omega
    have h3 : r + (k : Int) + 1 = r + ((k + 1 : Nat) : Int) := by push_cast; ring
    have h4 : (r + (k : Int) - r).toNat = k := by simp
    simp only [translateRange, translate_single r b _ h1 h2, h3, ih (k + 1) (by omega), h4,
      List.range'_succ]
    simp [Nat.add_assoc]

theorem translateRange_nil (p : Int) (n : Nat) : translateRange [] p (n + 1) = none := by
  simp [translateRange, translate]

theorem pokeLE_frame (addrs : List Nat) :
    ∀ (phys : Nat → Nat) (v x : Nat), x ∉ addrs → pokeLE phys addrs v x = phys x := by
  induction addrs with
  | nil => intro phys v x _; rfl
  | cons a rest ih =>
    intro phys v x hx
    have hxa : x ≠ a := fun h => hx (by simp [h])
    have hxr : x ∉ rest := fun h => hx (by simp [h])
    simp [pokeLE, ih _ _ _ hxr, Function.update, hxa]

theorem peek_poke (n : Nat) :
    ∀ (phys : Nat → Nat) (a v : Nat),
      peekLE (pokeLE phys (List.range' a n) v) (List.range' a n) = v % 256 ^ n := by
  induction n with
  | zero => intro phys a v; simp [peekLE, Nat.mod_one]
  | succ n ih =>
    intro phys a v
    have hnot : a ∉ List.range' (a + 1) n := by
      simp only [List.mem_range', not_exists, not_and]
      intro x _; omega
    simp only [List.range'_succ, pokeLE, peekLE, ih]
    rw [pokeLE_frame _ _ _ _ hnot]
    simp only [Function.update_same, Nat.mod_mod]
    rw [pow_succ, Nat.mul_comm (256 ^ n) 256, Nat.mod_mul]

theorem update_live (a : Nat) (w : World) (ha : a < 2 ^ 32) (hw : Fresh w ∨ Live w)
    (hres : w.devmem_map_base ≠ MAP_FAILED ∨
      a &&& (ULONG_MAX - DEVMEM_WINDOW_MASK) ≠ w.devmem_current)
    (hg : a &&& (ULONG_MAX - DEVMEM_WINDOW_MASK) ≠ w.devmem_current →
      (w.mmap_grant w.mmap_calls (a &&& (ULONG_MAX - DEVMEM_WINDOW_MASK))).isSome) :
    ∃ p w1, devmem_update a w = .ret p w1 ∧
      p = w1.devmem_map_base + ((a % 4096 : Nat) : Int) ∧ Live w1 ∧ w1.devmem_current = 4096 * (a / 4096) ∧ SameEnv w w1 ∧
      ∃ evs, w1.trace = w.trace ++ evs ∧ ∀ e ∈ evs, e.isMapping = true := by
  have hbase := window_base_eq a ha
  by_cases hb : a &&& (ULONG_MAX - DEVMEM_WINDOW_MASK) = w.devmem_current
  · have hl : Live w := by
      rcases hw with hf | hl
      · rcases hres with h | h
        · exact absurd hf.1 h
        · exact absurd hb h
      · exact hl
    have hc : w.devmem_current = 4096 * (a / 4096) := by rw [← hb, hbase]
    exact ⟨_, w, update_reuse a w hb, rfl, hl, hc, ⟨rfl, rfl, rfl, rfl, rfl⟩, [], by simp, by simp⟩
  · obtain ⟨pg, hpg⟩ := Option.isSome_iff_exists.mp (hg hb)
    have hne : ((4096 * pg : Nat) : Int) ≠ MAP_FAILED := by unfold MAP_FAILED; omega
    rcases hw with hf | hl
    · have h := update_remap_fresh a pg w hf hb hpg
      refine ⟨_, _, h, rfl, ⟨hne, rfl⟩, hbase, ⟨rfl, rfl, rfl, rfl, rfl⟩, _, rfl, ?_⟩
      intro e he
      simp at he
      subst he
      rfl
    · have h := update_remap_live a pg w hl hb hpg
      refine ⟨_, _, h, rfl, ⟨hne, rfl⟩, hbase, ⟨rfl, rfl, rfl, rfl, rfl⟩,
        [Event.munmap w.devmem_map_base, Event.mmap (a &&& (ULONG_MAX - DEVMEM_WINDOW_MASK))
          ((4096 * pg : Nat) : Int)], by simp, ?_⟩
      intro e he
      simp at he
      rcases he with he | he <;> subst he <;> rfl

theorem translateRange_live (w1 : World) (a n : Nat) (hl : Live w1)
    (hc : w1.devmem_current = 4096 * (a / 4096)) (hin : a % 4096 + n ≤ 4096) :
    translateRange w1.live (w1.devmem_map_base + ((a % 4096 : Nat) : Int)) n =
      some (List.range' a n) := by
  rw [hl.2, translateRange_single _ _ n (a % 4096) hin, hc, Nat.div_add_mod]

theorem store_live (w1 : World) (a n v : Nat) (hl : Live w1)
    (hc : w1.devmem_current = 4096 * (a / 4096)) (hin : a % 4096 + n ≤ 4096) :
    store (w1.devmem_map_base + ((a % 4096 : Nat) : Int)) n v w1 =
      .ret () { w1 with
        phys := pokeLE w1.phys (List.range' a n) v,
        trace := w1.trace ++ [Event.store (w1.devmem_map_base + ((a % 4096 : Nat) : Int)) n v] } := by
  unfold store
  rw [translateRange_live w1 a n hl hc hin]

theorem load_live (w1 : World) (a n : Nat) (hl : Live w1)
    (hc : w1.devmem_current = 4096 * (a / 4096)) (hin : a % 4096 + n ≤ 4096) :
    load (w1.devmem_map_base + ((a % 4096 : Nat) : Int)) n w1 =
      .ret (peekLE w1.phys (List.range' a n)) { w1 with
        trace := w1.trace ++ [Event.load (w1.devmem_map_base + ((a % 4096 : Nat) : Int)) n] } := by
  unfold load
  rw [translateRange_live w1 a n hl hc hin]

theorem pokeLE_mod (addrs : List Nat) :
    ∀ (phys : Nat → Nat) (v : Nat),
      pokeLE phys addrs (v % 256 ^ addrs.length) = pokeLE phys addrs v := by
  induction addrs with
  | nil => intro phys v; rfl
  | cons a rest ih =>
    intro phys v
    have h1 : v % 256 ^ (rest.length + 1) % 256 = v % 256 :=
      Nat.mod_mod_of_dvd v (Dvd.intro_left (256 ^ rest.length) rfl)
    have h2 : v % 256 ^ (rest.length + 1) / 256 = v / 256 % 256 ^ rest.length := by
      rw [pow_succ, Nat.mul_comm, Nat.mod_mul_right_div_self]
    simp only [pokeLE, List.length_cons, h1, h2, ih]

theorem width_pow (W : Nat) (hW : W = 8 ∨ W = 16 ∨ W = 32) : 256 ^ (W / 8) = 2 ^ W := by
  rcases hW with h | h | h <;> subst h <;> decide

theorem devmem_write_ok (a W v : Nat) (w : World) (ha : a < 2 ^ 32)
    (hW : W = 8 ∨ W = 16 ∨ W = 32) (hin : a % 4096 + W / 8 ≤ 4096)
    (hw : Fresh w ∨ Live w)
    (hres : w.devmem_map_base ≠ MAP_FAILED ∨
      a &&& (ULONG_MAX - DEVMEM_WINDOW_MASK) ≠ w.devmem_current)
    (hg : a &&& (ULONG_MAX - DEVMEM_WINDOW_MASK) ≠ w.devmem_current →
      (w.mmap_grant w.mmap_calls (a &&& (ULONG_MAX - DEVMEM_WINDOW_MASK))).isSome) :
    ∃ w2, devmem_write a W v w = .ret () w2 ∧ Live w2 ∧
      w2.devmem_current = 4096 * (a / 4096) ∧
      w2.phys = pokeLE w.phys (List.range' a (W / 8)) (v % 2 ^ W) ∧
      w2.stdin = w.stdin ∧ w2.stdout = w.stdout ∧ w2.write_results = w.write_results ∧
      w2.mmap_grant = w.mmap_grant := by
  obtain ⟨p, w1, hu, hp, hl, hc, ⟨e1, e2, e3, e4, e5⟩, _⟩ := update_live a w ha hw hres hg
  subst hp
  unfold devmem_write
  rw [hu]
  rcases hW with h | h | h <;> subst h
  · simp only [if_true]
    rw [store_live w1 a 1 _ hl hc hin]
    refine ⟨_, rfl, ?_⟩
    · exact ⟨hl, hc, by rw [← e1], e2, e3, e4, e5⟩
  · simp only [show (16 : Nat) ≠ 8 by decide, if_false, if_true]
    rw [store_live w1 a 2 _ hl hc hin]
    refine ⟨_, rfl, ?_⟩
    · exact ⟨hl, hc, by rw [← e1], e2, e3, e4, e5⟩
  · simp only [show (32 : Nat) ≠ 8 by decide, show (32 : Nat) ≠ 16 by decide, if_false, if_true]
    rw [store_live w1 a 4 _ hl hc hin]
    refine ⟨_, rfl, ?_⟩
    · refine ⟨hl, hc, ?_, e2, e3, e4, e5⟩
      show pokeLE w1.phys (List.range' a 4) v = pokeLE w.phys (List.range' a (32 / 8)) (v % 2 ^ 32)
      have := pokeLE_mod (List.range' a 4) w.phys v
      simp only [List.length_range'] at this
      rw [e1]
      exact this.symm

theorem devmem_read_ok (a W : Nat) (w : World) (ha : a < 2 ^ 32)
    (hW : W = 8 ∨ W = 16 ∨ W = 32) (hin : a % 4096 + W / 8 ≤ 4096)
    (hw : Fresh w ∨ Live w)
    (hres : w.devmem_map_base ≠ MAP_FAILED ∨
      a &&& (ULONG_MAX - DEVMEM_WINDOW_MASK) ≠ w.devmem_current)
    (hg : a &&& (ULONG_MAX - DEVMEM_WINDOW_MASK) ≠ w.devmem_current →
      (w.mmap_grant w.mmap_calls (a &&& (ULONG_MAX - DEVMEM_WINDOW_MASK))).isSome) :
    ∃ w2, devmem_read a W w = .ret (peekLE w.phys (List.range' a (W / 8))) w2 ∧ Live w2 ∧
      w2.devmem_current = 4096 * (a / 4096) ∧ w2.phys = w.phys ∧
      w2.stdin = w.stdin ∧ w2.stdout = w.stdout ∧ w2.write_results = w.write_results ∧
      w2.mmap_grant = w.mmap_grant := by
  obtain ⟨p, w1, hu, hp, hl, hc, ⟨e1, e2, e3, e4, e5⟩, _⟩ := update_live a w ha hw hres hg
  subst hp
  unfold devmem_read
  rw [hu, ← e1]
  rcases hW with h | h | h <;> subst h
  · simp only [if_true]
    rw [load_live w1 a 1 hl hc hin]
    refine ⟨_, rfl, ?_⟩
    · exact ⟨hl, hc, rfl, e2, e3, e4, e5⟩
  · simp only [show (16 : Nat) ≠ 8 by decide, if_false, if_true]
    rw [load_live w1 a 2 hl hc hin]
    refine ⟨_, rfl, ?_⟩
    · exact ⟨hl, hc, rfl, e2, e3, e4, e5⟩
  · simp only [show (32 : Nat) ≠ 8 by decide, show (32 : Nat) ≠ 16 by decide, if_false, if_true]
    rw [load_live w1 a 4 hl hc hin]
    refine ⟨_, rfl, ?_⟩
    · exact ⟨hl, hc, rfl, e2, e3, e4, e5⟩

theorem update_refused (a : Nat) (w : World)
    (hb : a &&& (ULONG_MAX - DEVMEM_WINDOW_MASK) ≠ w.devmem_current)
    (hg : w.mmap_grant w.mmap_calls (a &&& (ULONG_MAX - DEVMEM_WINDOW_MASK)) = none) :
    ∃ w1, devmem_update a w = .exit EXIT_FAILURE w1 ∧ SameEnv w w1 ∧
      ∃ evs, w1.trace = w.trace ++ evs ∧ ∀ e ∈ evs, e.isMapping = true := by
  unfold devmem_update
  by_cases h1 : w.devmem_map_base = MAP_FAILED
  · simp only [hb, ne_eq, not_false_eq_true, if_true, h1, not_true_eq_false, if_false,
      sys_mmap, hg]
    exact ⟨_, rfl, ⟨rfl, rfl, rfl, rfl, rfl⟩, _, rfl, by simp [Event.isMapping]⟩
  · simp only [hb, ne_eq, not_false_eq_true, if_true, h1, sys_mmap, sys_munmap, hg]
    refine ⟨_, rfl, ⟨rfl, rfl, rfl, rfl, rfl⟩,
      [Event.munmap w.devmem_map_base,
        Event.mmap (a &&& (ULONG_MAX - DEVMEM_WINDOW_MASK)) MAP_FAILED], by simp, ?_⟩
    simp [Event.isMapping]

theorem update_granted (a pg : Nat) (w : World)
    (hb : a &&& (ULONG_MAX - DEVMEM_WINDOW_MASK) ≠ w.devmem_current)
    (hg : w.mmap_grant w.mmap_calls (a &&& (ULONG_MAX - DEVMEM_WINDOW_MASK)) = some pg) :
    ∃ w1, devmem_update a w = .ret (((4096 * pg : Nat) : Int) + ((a % 4096 : Nat) : Int)) w1 ∧
      w1.devmem_map_base = ((4096 * pg : Nat) : Int) ∧
      w1.devmem_current = a &&& (ULONG_MAX - DEVMEM_WINDOW_MASK) ∧
      w1.live.head? = some ⟨((4096 * pg : Nat) : Int), a &&& (ULONG_MAX - DEVMEM_WINDOW_MASK)⟩ ∧
      SameEnv w w1 ∧
      ∃ evs, w1.trace = w.trace ++ evs ∧ ∀ e ∈ evs, e.isMapping = true := by
  have hne : ¬ (4096 * (pg : Int) = MAP_FAILED) := by unfold MAP_FAILED; omega
  unfold devmem_update
  by_cases h1 : w.devmem_map_base = MAP_FAILED
  · simp only [hb, ne_eq, not_false_eq_true, if_true, h1, not_true_eq_false, if_false,
      sys_mmap, hg, land_window_mask, Nat.cast_mul, Nat.cast_ofNat, hne]
    exact ⟨_, rfl, rfl, rfl, rfl, ⟨rfl, rfl, rfl, rfl, rfl⟩, _, rfl, by simp [Event.isMapping]⟩
  · simp only [hb, ne_eq, not_false_eq_true, if_true, h1, sys_mmap, sys_munmap, hg,
      land_window_mask, Nat.cast_mul, Nat.cast_ofNat, hne, if_false]
    refine ⟨_, rfl, rfl, rfl, rfl, ⟨rfl, rfl, rfl, rfl, rfl⟩,
      [Event.munmap w.devmem_map_base,
        Event.mmap (a &&& (ULONG_MAX - DEVMEM_WINDOW_MASK)) (4096 * (pg : Int))], by simp, ?_⟩
    simp [Event.isMapping]

theorem update_outcome (a : Nat) (w : World) :
    ∃ w1, (devmem_update a w = .exit EXIT_FAILURE w1 ∨ ∃ p, devmem_update a w = .ret p w1) ∧
      SameEnv w w1 ∧ ∃ evs, w1.trace = w.trace ++ evs ∧ ∀ e ∈ evs, e.isMapping = true := by
  by_cases hb : a &&& (ULONG_MAX - DEVMEM_WINDOW_MASK) = w.devmem_current
  · exact ⟨w, Or.inr ⟨_, update_reuse a w hb⟩, ⟨rfl, rfl, rfl, rfl, rfl⟩, [], by simp, by simp⟩
  · cases hg : w.mmap_grant w.mmap_calls (a &&& (ULONG_MAX - DEVMEM_WINDOW_MASK)) with
    | none =>
      obtain ⟨w1, h, he, ht⟩ := update_refused a w hb hg
      exact ⟨w1, Or.inl h, he, ht⟩
    | some pg =>
      obtain ⟨w1, h, _, _, _, he, ht⟩ := update_granted a pg w hb hg
      exact ⟨w1, Or.inr ⟨_, h⟩, he, ht⟩

/-! ### The location `devmem_update` computes -/

/-- The arithmetic of `devmem_update`, in every state.  For every 32-bit address the
window base `address AND NOT 4095` is a multiple of 4096, `base <= address < base + 4096`,
and the offset `address AND 4095` is `address - base`, which is below 4096.  The call
either returns the value of `devmem_map_base` plus `address - base` and leaves
`devmem_current = base`, or it ends the process with `EXIT_FAILURE`, which happens only
when the window changed and the kernel refused the mapping.  Whether `devmem_map_base`
is the start of a mapped region is not part of this statement. -/
theorem update_base_and_offset (w : World) (address : Nat) (h : address < 2 ^ 32) :
    (address &&& (ULONG_MAX - DEVMEM_WINDOW_MASK)) % 4096 = 0 ∧
    address &&& (ULONG_MAX - DEVMEM_WINDOW_MASK) ≤ address ∧
    address < (address &&& (ULONG_MAX - DEVMEM_WINDOW_MASK)) + 4096 ∧
    address &&& DEVMEM_WINDOW_MASK = address - (address &&& (ULONG_MAX - DEVMEM_WINDOW_MASK)) ∧
    address - (address &&& (ULONG_MAX - DEVMEM_WINDOW_MASK)) < 4096 ∧
    ((∃ p w1, devmem_update address w = .ret p w1 ∧
        p = w1.devmem_map_base +
          ((address - (address &&& (ULONG_MAX - DEVMEM_WINDOW_MASK)) : Nat) : Int) ∧
        w1.devmem_current = address &&& (ULONG_MAX - DEVMEM_WINDOW_MASK) ∧
        (address &&& (ULONG_MAX - DEVMEM_WINDOW_MASK) ≠ w.devmem_current →
          w1.live.head? =
            some ⟨w1.devmem_map_base, address &&& (ULONG_MAX - DEVMEM_WINDOW_MASK)⟩)) ∨
      (address &&& (ULONG_MAX - DEVMEM_WINDOW_MASK) ≠ w.devmem_current ∧
        w.mmap_grant w.mmap_calls (address &&& (ULONG_MAX - DEVMEM_WINDOW_MASK)) = none ∧
        ∃ w1, devmem_update address w = .exit EXIT_FAILURE w1)) := by
  have hbase := window_base_eq address h
  have hoff : address - 4096 * (address / 4096) = address % 4096 := by omega
  refine ⟨by rw [hbase]; omega, by rw [hbase]; omega, by rw [hbase]; omega,
    by rw [hbase, land_window_mask]; omega, by rw [hbase]; omega, ?_⟩
  by_cases hb : address &&& (ULONG_MAX - DEVMEM_WINDOW_MASK) = w.devmem_current
  · refine Or.inl ⟨_, w, update_reuse address w hb, ?_, hb.symm, fun hne => absurd hb hne⟩
    rw [hbase, hoff]
  · cases hg : w.mmap_grant w.mmap_calls (address &&& (ULONG_MAX - DEVMEM_WINDOW_MASK)) with
    | none =>
      obtain ⟨w1, h1, _⟩ := update_refused address w hb hg
      exact Or.inr ⟨hb, rfl, w1, h1⟩
    | some pg =>
      obtain ⟨w1, h1, h2, h3, h4, _⟩ := update_granted address pg w hb hg
      refine Or.inl ⟨_, w1, h1, ?_, h3, fun _ => ?_⟩
      · rw [h2, hbase, hoff]
      · rw [h4, h2]

/-- Where a window is or gets mapped for the address, the location returned is the
start of the one live region, which maps the window at `base`, plus `address - base`,
and the byte behind it is the byte at physical address `address`. -/
theorem update_backed (w : World) (address : Nat) (h : address < 2 ^ 32)
    (hw : Fresh w ∨ Live w)
    (hres : w.devmem_map_base ≠ MAP_FAILED ∨
      address &&& (ULONG_MAX - DEVMEM_WINDOW_MASK) ≠ w.devmem_current)
    (hg : address &&& (ULONG_MAX - DEVMEM_WINDOW_MASK) ≠ w.devmem_current →
      (w.mmap_grant w.mmap_calls (address &&& (ULONG_MAX - DEVMEM_WINDOW_MASK))).isSome) :
    ∃ p w1, devmem_update address w = .ret p w1 ∧
      w1.live = [⟨w1.devmem_map_base, address &&& (ULONG_MAX - DEVMEM_WINDOW_MASK)⟩] ∧
      p = w1.devmem_map_base +
        ((address - (address &&& (ULONG_MAX - DEVMEM_WINDOW_MASK)) : Nat) : Int) ∧
      w1.devmem_current = address &&& (ULONG_MAX - DEVMEM_WINDOW_MASK) ∧
      translate w1.live p = some address := by
  have hbase := window_base_eq address h
  have hoff : address - 4096 * (address / 4096) = address % 4096 := by omega
  have hlt : address % 4096 < 4096 := Nat.mod_lt _ (by decide)
  obtain ⟨p, w1, hu, hp, hl, hc, _, _⟩ := update_live address w h hw hres hg
  subst hp
  refine ⟨_, w1, hu, ?_, ?_, ?_, ?_⟩
  · rw [hl.2, hc, hbase]
  · rw [hbase, hoff]
  · rw [hc, hbase]
  · rw [hl.2, translate_single _ _ _ (by omega) (by omega), hc]
    have : (w1.devmem_map_base + ((address % 4096 : Nat) : Int) - w1.devmem_map_base).toNat =
        address % 4096 := by
      omega
    rw [this, Nat.div_add_mod]

/-! ### C5: a write followed by a read -/

/-- C5, as amended.  In a state the mapper can be in (the one `devmem_open` leaves, or
one with a window mapped), for every 32-bit address `A`, every value `V` and every
width `W` in 8, 16, 32 such that the `W / 8` bytes at `A` lie inside the 4096-byte
window of `A`: when a window is or gets mapped for `A` and the kernel grants the
mapping it is asked for, `devmem_write A W V` returns and the `devmem_read A W` that
follows returns `V` masked to `W` bits. -/
theorem write_then_read (w : World) (A V W : Nat) (hA : A < 2 ^ 32)
    (hW : W = 8 ∨ W = 16 ∨ W = 32) (hin : A % 4096 + W / 8 ≤ 4096)
    (hw : Fresh w ∨ Live w)
    (hres : w.devmem_map_base ≠ MAP_FAILED ∨
      A &&& (ULONG_MAX - DEVMEM_WINDOW_MASK) ≠ w.devmem_current)
    (hg : A &&& (ULONG_MAX - DEVMEM_WINDOW_MASK) ≠ w.devmem_current →
      (w.mmap_grant w.mmap_calls (A &&& (ULONG_MAX - DEVMEM_WINDOW_MASK))).isSome) :
    ∃ w1 w2, devmem_write A W V w = .ret () w1 ∧ devmem_read A W w1 = .ret (V % 2 ^ W) w2 := by
  obtain ⟨w1, h1, hl, hc, hp, _⟩ := devmem_write_ok A W V w hA hW hin hw hres hg
  have hcur : A &&& (ULONG_MAX - DEVMEM_WINDOW_MASK) = w1.devmem_current := by
    rw [hc, window_base_eq A hA]
  obtain ⟨w2, h2, _⟩ := devmem_read_ok A W w1 hA hW hin (Or.inr hl) (Or.inl hl.1)
    (fun hne => absurd hcur hne)
  refine ⟨w1, w2, h1, ?_⟩
  rw [h2, hp, peek_poke, width_pow W hW, Nat.mod_mod]

/-- C5 as amended, at a concrete input: a 16-bit write and read at address 4100 in
the state `devmem_open` leaves. -/
theorem write_then_read_witness :
    ∃ w1 w2, devmem_write 4100 16 0x12345 openedWorld = .ret () w1 ∧
      devmem_read 4100 16 w1 = .ret (0x12345 % 2 ^ 16) w2 :=
  write_then_read openedWorld 4100 0x12345 16 (by decide) (by decide) (by decide)
    (Or.inl (by decide)) (Or.inr (by decide)) (fun _ => by decide)

/-- C5 as stated fails: a 16-bit write at address 8191 reaches one byte past the
4096-byte window that was mapped for it, so the write does not return and no read
gives the value back. -/
theorem write_then_read_across_window :
    (devmem_write 8191 16 0x1234 openedWorld).isFault = true ∧
    ¬ ∃ w1 w2, devmem_write 8191 16 0x1234 openedWorld = .ret () w1 ∧
      devmem_read 8191 16 w1 = .ret (0x1234 % 2 ^ 16) w2 := by
  have hf : (devmem_write 8191 16 0x1234 openedWorld).isFault = true := by decide
  refine ⟨hf, ?_⟩
  rintro ⟨w1, w2, h1, _⟩
  rw [h1] at hf
  cases hf

/-! ### C9: an 8-bit write changes one byte -/

/-- C9. In a state the mapper can be in, for every 32-bit address `A` and value `V`,
`devmem_write A 8 V` leaves every byte of physical memory other than the one at `A`
as it was, however the call ends; when it returns, the byte at `A` is `V AND 0xFF`;
and it returns whenever a window is or gets mapped for `A` and the kernel grants the
mapping it is asked for. -/
theorem byte_write_frame (w : World) (A V : Nat) (hA : A < 2 ^ 32) (hw : Fresh w ∨ Live w) :
    (∀ x, x ≠ A → (devmem_write A 8 V w).world.phys x = w.phys x) ∧
    (∀ w1, devmem_write A 8 V w = .ret () w1 → w1.phys A = V % 256) ∧
    (w.devmem_map_base ≠ MAP_FAILED ∨
        A &&& (ULONG_MAX - DEVMEM_WINDOW_MASK) ≠ w.devmem_current →
      (A &&& (ULONG_MAX - DEVMEM_WINDOW_MASK) ≠ w.devmem_current →
        (w.mmap_grant w.mmap_calls (A &&& (ULONG_MAX - DEVMEM_WINDOW_MASK))).isSome) →
      ∃ w1, devmem_write A 8 V w = .ret () w1) := by
  have hin : A % 4096 + 8 / 8 ≤ 4096 := by
    have := Nat.mod_lt A (show 4096 > 0 by decide)
    omega
  by_cases hres : w.devmem_map_base ≠ MAP_FAILED ∨
      A &&& (ULONG_MAX - DEVMEM_WINDOW_MASK) ≠ w.devmem_current
  · by_cases hg : A &&& (ULONG_MAX - DEVMEM_WINDOW_MASK) ≠ w.devmem_current →
        (w.mmap_grant w.mmap_calls (A &&& (ULONG_MAX - DEVMEM_WINDOW_MASK))).isSome
    · obtain ⟨w2, h2, _, _, hp, _⟩ :=
        devmem_write_ok A 8 V w hA (Or.inl rfl) hin hw hres hg
      have hp2 : w2.phys = Function.update w.phys A (V % 256) := by
        rw [hp]
        simp [pokeLE]
      refine ⟨?_, ?_, fun _ _ => ⟨w2, h2⟩⟩
      · intro x hx
        rw [h2]
        simp [Outcome.world, hp2, Function.update, hx]
      · intro w1 h1
        rw [h2] at h1
        cases h1
        simp [hp2]
    · have hb : A &&& (ULONG_MAX - DEVMEM_WINDOW_MASK) ≠ w.devmem_current := by
        intro h
        exact hg (fun hne => absurd h hne)
      have hn : w.mmap_grant w.mmap_calls (A &&& (ULONG_MAX - DEVMEM_WINDOW_MASK)) = none := by
        cases hq : w.mmap_grant w.mmap_calls (A &&& (ULONG_MAX - DEVMEM_WINDOW_MASK)) with
        | none => rfl
        | some pg => exact absurd (fun _ => by simp [hq]) hg
      obtain ⟨w1, h1, ⟨e1, _⟩, _⟩ := update_refused A w hb hn
      have hx : devmem_write A 8 V w = .exit EXIT_FAILURE w1 := by
        unfold devmem_write
        rw [h1]
      refine ⟨?_, ?_, fun _ hg2 => absurd hg2 hg⟩
      · intro x _
        rw [hx]
        simp [Outcome.world, e1]
      · intro w2 h2
        rw [hx] at h2
        cases h2
  · have hm : w.devmem_map_base = MAP_FAILED := by
      by_contra h
      exact hres (Or.inl h)
    have hb : A &&& (ULONG_MAX - DEVMEM_WINDOW_MASK) = w.devmem_current := by
      by_contra h
      exact hres (Or.inr h)
    have hl : w.live = [] := by
      rcases hw with hf | hl
      · exact hf.2.2
      · exact absurd hm hl.1
    have hx : devmem_write A 8 V w = .fault w := by
      unfold devmem_write
      rw [update_reuse A w hb]
      simp only [if_true]
      unfold store
      rw [hl, translateRange_nil]
    refine ⟨?_, ?_, fun h _ => absurd h hres⟩
    · intro x _
      rw [hx]
      rfl
    · intro w2 h2
      rw [hx] at h2
      cases h2

/-- C9, at a concrete input: an 8-bit write of 0x1FF at address 4100 in the state
`devmem_open` leaves changes the byte at 4100 to 0xFF and leaves its two neighbours
as they were. -/
theorem byte_write_frame_witness :
    (4100 : Nat) < 2 ^ 32 ∧ (Fresh openedWorld ∨ Live openedWorld) ∧
    (devmem_write 4100 8 0x1FF openedWorld).world.phys 4099 = openedWorld.phys 4099 ∧
    (devmem_write 4100 8 0x1FF openedWorld).world.phys 4101 = openedWorld.phys 4101 ∧
    (devmem_write 4100 8 0x1FF openedWorld).world.phys 4100 = 0xFF :=
  ⟨by decide, Or.inl (by decide),
    (byte_write_frame openedWorld 4100 0x1FF (by decide) (Or.inl (by decide))).1 4099 (by decide),
    (byte_write_frame openedWorld 4100 0x1FF (by decide) (Or.inl (by decide))).1 4101 (by decide),
    by decide⟩

/-! ### C6 and C7: commands that are refused -/

/-- C6, as amended.  For every read or write command whose width is not 8, 16 or 32,
carrying it out ends the process with `EXIT_FAILURE`, without a load or a store:
physical memory and standard output are as before.  The mapper is called first all
the same: the state at the end is the one `devmem_update` reaches for the address
of the command, and what the trace gained are the changes of mappings made by that
call. -/
theorem bad_width_exits (cmd : Command) (w : World)
    (hop : cmd.command = COMMAND_READ ∨ cmd.command = COMMAND_WRITE)
    (h8 : cmd.width ≠ 8) (h16 : cmd.width ≠ 16) (h32 : cmd.width ≠ 32) :
    ∃ w1, dispatch cmd w = some (.exit EXIT_FAILURE w1) ∧ EXIT_FAILURE ≠ 0 ∧
      w1 = (devmem_update cmd.address w).world ∧
      w1.phys = w.phys ∧ w1.stdout = w.stdout ∧
      ∃ evs, w1.trace = w.trace ++ evs ∧ ∀ e ∈ evs, e.isMapping = true := by
  obtain ⟨w1, ho, ⟨e1, _, e3, _⟩, ht⟩ := update_outcome cmd.address w
  refine ⟨w1, ?_, by decide, ?_, e1, e3, ht⟩
  · rcases hop with hc | hc
    · rcases ho with ho | ⟨p, ho⟩ <;>
        simp [dispatch, hc, devmem_read, ho, h8, h16, h32]
    · have hne : ¬ (COMMAND_WRITE = COMMAND_READ) := by decide
      rcases ho with ho | ⟨p, ho⟩ <;>
        simp [dispatch, hc, hne, devmem_write, ho, h8, h16, h32]
  · rcases ho with ho | ⟨p, ho⟩ <;> rw [ho] <;> rfl

/-- C6 as amended, at a concrete input: a read of width 7 at address 4096. -/
theorem bad_width_exits_witness :
    ∃ w1, dispatch ⟨COMMAND_READ, 7, 4096, 0⟩ openedWorld = some (.exit EXIT_FAILURE w1) ∧
      EXIT_FAILURE ≠ 0 ∧
      w1 = (devmem_update 4096 openedWorld).world ∧
      w1.phys = openedWorld.phys ∧ w1.stdout = openedWorld.stdout ∧
      ∃ evs, w1.trace = openedWorld.trace ++ evs ∧ ∀ e ∈ evs, e.isMapping = true :=
  bad_width_exits ⟨COMMAND_READ, 7, 4096, 0⟩ openedWorld (Or.inl rfl) (by decide) (by decide)
    (by decide)

/-- C6 as stated fails: a read of width 7 at address 4096, in the state `devmem_open`
leaves, ends the process with `EXIT_FAILURE` after the mapper mapped the window at
4096 and recorded it as the active window. -/
theorem bad_width_maps_window :
    (dispatch ⟨COMMAND_READ, 7, 4096, 0⟩ openedWorld).map
        (fun o => (o.status, o.world.trace, o.world.devmem_current, o.world.live)) =
      some (some EXIT_FAILURE, [Event.mmap 4096 65536], 4096, [⟨65536, 4096⟩]) ∧
    openedWorld.trace = [] ∧ openedWorld.devmem_current = 0 ∧ openedWorld.live = [] := by
  decide

/-- C7. For every command whose operation code is neither 0 nor 1, whatever its width,
address and value, carrying it out ends the process with `EXIT_FAILURE`, which is not
zero, in the very state the command was received in: nothing was loaded or stored,
the mapper was not called, no mapping changed and nothing was written to standard
output.  The loop of `main` ends the same way once `get_command` delivered such a
command. -/
theorem bad_command_exits (cmd : Command) (w : World)
    (h0 : cmd.command ≠ COMMAND_READ) (h1 : cmd.command ≠ COMMAND_WRITE) :
    dispatch cmd w = some (.exit EXIT_FAILURE w) ∧ EXIT_FAILURE ≠ 0 ∧
    ∀ fuel w0, get_command w0 = some (.ret cmd w) →
      main_loop (fuel + 1) w0 = some (.exit EXIT_FAILURE w) := by
  have hd : dispatch cmd w = some (.exit EXIT_FAILURE w) := by
    simp [dispatch, h0, h1]
  refine ⟨hd, by decide, ?_⟩
  intro fuel w0 hg
  simp [main_loop, hg, hd]

/-- C7, at a concrete input: operation code 2. -/
theorem bad_command_exits_witness :
    dispatch ⟨2, 8, 4096, 0⟩ openedWorld = some (.exit EXIT_FAILURE openedWorld) :=
  (bad_command_exits ⟨2, 8, 4096, 0⟩ openedWorld (by decide) (by decide)).1

/-! ### At most one window is mapped at any point -/

theorem liveAfter_append (t ext : List Event) :
    liveAfter (t ++ ext) = ext.foldl liveStep (liveAfter t) := by
  simp [liveAfter, List.foldl_append]

theorem take_append_one (t : List Event) (e : Event) (n : Nat) :
    (t ++ [e]).take n = t.take n ∨ (t ++ [e]).take n = t ++ [e] := by
  by_cases h : n ≤ t.length
  · left
    exact List.take_append_of_le_length h
  · right
    apply List.take_of_length_le
    simp only [List.length_append, List.length_singleton]
    omega

theorem take_append_two (t : List Event) (e1 e2 : Event) (n : Nat) :
    (t ++ [e1, e2]).take n = t.take n ∨ (t ++ [e1, e2]).take n = t ++ [e1] ∨
      (t ++ [e1, e2]).take n = t ++ [e1, e2] := by
  have h2 : t ++ [e1, e2] = (t ++ [e1]) ++ [e2] := by simp
  rcases take_append_one (t ++ [e1]) e2 n with h | h
  · rcases take_append_one t e1 n with h' | h'
    · left; rw [h2, h, h']
    · right; left; rw [h2, h, h']
  · right; right; rw [h2, h]

theorem update_trace_fresh (a : Nat) (w : World) (hf : Fresh w)
    (hb : a &&& (ULONG_MAX - DEVMEM_WINDOW_MASK) ≠ w.devmem_current)
    (hg : w.mmap_grant w.mmap_calls (a &&& (ULONG_MAX - DEVMEM_WINDOW_MASK)) = none) :
    (devmem_update a w).world.trace =
      w.trace ++ [Event.mmap (a &&& (ULONG_MAX - DEVMEM_WINDOW_MASK)) MAP_FAILED] := by
  unfold devmem_update
  simp [hb, hf.1, sys_mmap, hg, Outcome.world]

theorem update_trace_live (a : Nat) (w : World) (hl : Live w)
    (hb : a &&& (ULONG_MAX - DEVMEM_WINDOW_MASK) ≠ w.devmem_current)
    (hg : w.mmap_grant w.mmap_calls (a &&& (ULONG_MAX - DEVMEM_WINDOW_MASK)) = none) :
    (devmem_update a w).world.trace =
      w.trace ++ [Event.munmap w.devmem_map_base,
        Event.mmap (a &&& (ULONG_MAX - DEVMEM_WINDOW_MASK)) MAP_FAILED] := by
  unfold devmem_update
  simp [hb, hl.1, sys_mmap, sys_munmap, hg, Outcome.world]

theorem tracked_update (a : Nat) (w : World) (ht : Tracked w) :
    (∀ n, (liveAfter ((devmem_update a w).world.trace.take n)).length ≤ 1) ∧
    (∀ p w1, devmem_update a w = .ret p w1 → Tracked w1) := by
  obtain ⟨hrep, hw, hpre⟩ := ht
  by_cases hb : a &&& (ULONG_MAX - DEVMEM_WINDOW_MASK) = w.devmem_current
  · rw [update_reuse a w hb]
    refine ⟨hpre, ?_⟩
    intro p w1 h
    cases h
    exact ⟨hrep, hw, hpre⟩
  · rcases hw with hf | hl
    · have hlive : liveAfter w.trace = [] := by rw [hrep, hf.2.2]; rfl
      cases hg : w.mmap_grant w.mmap_calls (a &&& (ULONG_MAX - DEVMEM_WINDOW_MASK)) with
      | none =>
        obtain ⟨w1, h1, _⟩ := update_refused a w hb hg
        have htr := update_trace_fresh a w hf hb hg
        refine ⟨?_, ?_⟩
        · intro n
          rw [htr]
          rcases take_append_one w.trace _ n with h | h <;> rw [h]
          · exact hpre n
          · simp [liveAfter_append, hlive, liveStep]
        · intro p w2 h
          rw [h1] at h
          cases h
      | some pg =>
        have hne : ((4096 * pg : Nat) : Int) ≠ MAP_FAILED := by unfold MAP_FAILED; omega
        rw [update_remap_fresh a pg w hf hb hg]
        have hnew : liveAfter (w.trace ++
            [Event.mmap (a &&& (ULONG_MAX - DEVMEM_WINDOW_MASK)) ((4096 * pg : Nat) : Int)]) =
            [((4096 * pg : Nat) : Int)] := by
          simp only [liveAfter_append, hlive, List.foldl_cons, List.foldl_nil, liveStep, hne,
            if_false]
        refine ⟨?_, ?_⟩
        · intro n
          show (liveAfter (List.take n (w.trace ++ _))).length ≤ 1
          rcases take_append_one w.trace _ n with h | h <;> rw [h]
          · exact hpre n
          · rw [hnew]
            simp
        · intro p w1 h
          cases h
          refine ⟨?_, Or.inr ⟨hne, rfl⟩, ?_⟩
          · show liveAfter (w.trace ++ _) = _
            rw [hnew]
            rfl
          · intro n
            show (liveAfter (List.take n (w.trace ++ _))).length ≤ 1
            rcases take_append_one w.trace _ n with h | h <;> rw [h]
            · exact hpre n
            · rw [hnew]
              simp
    · have hlive : liveAfter w.trace = [w.devmem_map_base] := by rw [hrep, hl.2]; rfl
      have hun : liveAfter (w.trace ++ [Event.munmap w.devmem_map_base]) = [] := by
        simp [liveAfter_append, hlive, liveStep]
      cases hg : w.mmap_grant w.mmap_calls (a &&& (ULONG_MAX - DEVMEM_WINDOW_MASK)) with
      | none =>
        obtain ⟨w1, h1, _⟩ := update_refused a w hb hg
        have htr := update_trace_live a w hl hb hg
        refine ⟨?_, ?_⟩
        · intro n
          rw [htr]
          rcases take_append_two w.trace _ _ n with h | h | h <;> rw [h]
          · exact hpre n
          · rw [hun]
            simp
          · simp [liveAfter_append, hlive, liveStep]
        · intro p w2 h
          rw [h1] at h
          cases h
      | some pg =>
        have hne : ((4096 * pg : Nat) : Int) ≠ MAP_FAILED := by unfold MAP_FAILED; omega
        rw [update_remap_live a pg w hl hb hg]
        have hnew : liveAfter (w.trace ++ [Event.munmap w.devmem_map_base] ++
            [Event.mmap (a &&& (ULONG_MAX - DEVMEM_WINDOW_MASK)) ((4096 * pg : Nat) : Int)]) =
            [((4096 * pg : Nat) : Int)] := by
          rw [liveAfter_append, hun]
          simp only [List.foldl_cons, List.foldl_nil, liveStep, hne, if_false]
        have hall : ∀ n, (liveAfter (List.take n (w.trace ++ [Event.munmap w.devmem_map_base] ++
            [Event.mmap (a &&& (ULONG_MAX - DEVMEM_WINDOW_MASK))
              ((4096 * pg : Nat) : Int)]))).length ≤ 1 := by
          intro n
          rcases take_append_one (w.trace ++ [Event.munmap w.devmem_map_base]) _ n with h | h
          · rw [h]
            rcases take_append_one w.trace (Event.munmap w.devmem_map_base) n with h' | h'
            · rw [h']
              exact hpre n
            · rw [h', hun]
              simp
          · rw [h, hnew]
            simp
        refine ⟨hall, ?_⟩
        intro p w1 h
        cases h
        refine ⟨?_, Or.inr ⟨hne, rfl⟩, hall⟩
        show liveAfter (w.trace ++ _ ++ _) = _
        rw [hnew]
        rfl

/-- At most one window is mapped at any point: in the state `devmem_open` leaves at
the start of a process, for every sequence of addresses resolved with `devmem_update`
and whatever the kernel answers, the number of mapped regions after each prefix of
the trace is at most one. -/
theorem live_at_most_one :
    ∀ (addrs : List Nat) (w : World), Tracked w →
      ∀ n, (liveAfter ((resolve_all addrs w).world.trace.take n)).length ≤ 1 := by
  intro addrs
  induction addrs with
  | nil =>
    intro w ht n
    exact ht.2.2 n
  | cons a rest ih =>
    intro w ht n
    obtain ⟨h1, h2⟩ := tracked_update a w ht
    cases hu : devmem_update a w with
    | ret p w1 =>
      have ht1 := h2 p w1 hu
      have := ih w1 ht1 n
      simp only [resolve_all, hu]
      cases hr : resolve_all rest w1 with
      | ret ps w2 => rw [hr] at this; exact this
      | exit s w2 => rw [hr] at this; exact this
      | fault w2 => rw [hr] at this; exact this
    | exit s w1 =>
      have := h1 n
      rw [hu] at this
      simp only [resolve_all, hu]
      exact this
    | fault w1 =>
      have := h1 n
      rw [hu] at this
      simp only [resolve_all, hu]
      exact this

theorem tracked_opened (w : World) (hf : Fresh w) (ht : w.trace = []) : Tracked w := by
  refine ⟨?_, Or.inl hf, ?_⟩
  · rw [ht, hf.2.2]
    rfl
  · intro n
    rw [ht]
    simp [liveAfter]

theorem update_fresh_first_window (a : Nat) (w : World) (hf : Fresh w) (ha : a < 4096) :
    devmem_update a w = .ret (MAP_FAILED + (a : Int)) w := by
  have hb : a &&& (ULONG_MAX - DEVMEM_WINDOW_MASK) = w.devmem_current := by
    rw [window_base_eq a (lt_trans ha (by decide)), hf.2.1, Nat.div_eq_of_lt ha]
  rw [update_reuse a w hb, hf.1, Nat.mod_eq_of_lt ha]

/-! ### C1, C2, C3, C4: the window at base 0 right after `devmem_open`

`devmem_open` sets `devmem_current` to 0, which is also the base of the first
window, while `devmem_map_base` says that nothing is mapped.  The first resolution
of an address below 4096 therefore finds `base == devmem_current` and maps
nothing. -/

/-- C1, the code at the failing input.  In the state `devmem_open` leaves,
`devmem_update 5` returns the location `MAP_FAILED + 5` without any `mmap`: the trace
is empty, no mapping is live, no mapping covers the location returned, and the read
that uses it is an access outside every mapping.  Address 4101 in the next window
gets a live mapping that covers the location returned. -/
theorem update_window_zero_unmapped :
    Fresh openedWorld ∧
    (devmem_update 5 openedWorld).value = some (MAP_FAILED + 5) ∧
    (devmem_update 5 openedWorld).world.trace = [] ∧
    (devmem_update 5 openedWorld).world.live = [] ∧
    translate (devmem_update 5 openedWorld).world.live (MAP_FAILED + 5) = none ∧
    (devmem_read 5 8 openedWorld).isFault = true ∧
    (devmem_update 4101 openedWorld).value = some (65536 + 5) ∧
    translate (devmem_update 4101 openedWorld).world.live (65536 + 5) = some 4101 := by
  decide

/-- C2, the code at the failing input.  In the state `devmem_open` leaves,
`devmem_update 5` returns `devmem_map_base + 5` with `devmem_map_base` still
`MAP_FAILED`: no region is mapped, so the location returned is not the start of a
mapped region plus the offset, although base, offset and `devmem_current` are the
ones the claim names.  For address 4101 the location returned is the start of the
region mapped at base 4096 plus the offset 5. -/
theorem update_window_zero_no_region :
    (devmem_update 5 openedWorld).value = some (MAP_FAILED + 5) ∧
    (devmem_update 5 openedWorld).world.devmem_map_base = MAP_FAILED ∧
    (devmem_update 5 openedWorld).world.devmem_current = 5 &&& (ULONG_MAX - DEVMEM_WINDOW_MASK) ∧
    (devmem_update 5 openedWorld).world.live = [] ∧
    (¬ ∃ m, m ∈ (devmem_update 5 openedWorld).world.live ∧
      (devmem_update 5 openedWorld).value = some (m.start + 5)) ∧
    (devmem_update 4101 openedWorld).world.live = [⟨65536, 4096⟩] ∧
    (devmem_update 4101 openedWorld).value = some (65536 + 5) ∧
    (devmem_update 4101 openedWorld).world.devmem_current =
      4101 &&& (ULONG_MAX - DEVMEM_WINDOW_MASK) := by
  refine ⟨by decide, by decide, by decide, by decide, ?_, by decide, by decide, by decide⟩
  rintro ⟨m, hm, _⟩
  have hl : (devmem_update 5 openedWorld).world.live = [] := by decide
  rw [hl] at hm
  cases hm

/-- C3, the code at the failing input.  In the state `devmem_open` leaves, resolving
addresses 0 and 4 (both in the window at base 0) performs no `mmap` at all, and both
locations returned are offsets from `MAP_FAILED`; resolving 4096 and 4100 performs
exactly one. -/
theorem same_window_zero_no_mmap :
    (resolve_all [0, 4] openedWorld).value = some [MAP_FAILED, MAP_FAILED + 4] ∧
    mmap_count (resolve_all [0, 4] openedWorld).world.trace = 0 ∧
    (resolve_all [0, 4] openedWorld).world.live = [] ∧
    mmap_count (resolve_all [4096, 4100] openedWorld).world.trace = 1 ∧
    (resolve_all [4096, 4100] openedWorld).value = some [65536, 65536 + 4] := by
  decide

/-- C4, the code at the failing input.  In the state `devmem_open` leaves, resolving
address 0 and then address 4096 maps the window at 4096 and nothing else: no window
covering address 0 was ever mapped, so none is unmapped.  Resolving 4096 and then
8192 maps, unmaps and maps, in this order. -/
theorem window_zero_never_unmapped :
    (resolve_all [0, 4096] openedWorld).world.trace = [Event.mmap 4096 65536] ∧
    (resolve_all [4096, 8192] openedWorld).world.trace =
      [Event.mmap 4096 65536, Event.munmap 65536, Event.mmap 8192 69632] := by
  decide

/-! ### The loop of `get_command` -/

theorem get_command_loop_zero (fuel : Nat) (buffer : List Nat) (w : World) :
    get_command_loop fuel 0 buffer w = some (.ret buffer w) := by
  cases fuel <;> rfl

theorem get_command_loop_spec :
    ∀ (fuel toread : Nat) (buffer : List Nat) (w : World), toread ≤ fuel →
      (toread ≤ (delivered w.stdin).length →
        ∃ rest, get_command_loop fuel toread buffer w =
            some (.ret (buffer ++ (delivered w.stdin).take toread) { w with stdin := rest }) ∧
          delivered rest = (delivered w.stdin).drop toread) ∧
      ((delivered w.stdin).length < toread →
        ∃ rest, get_command_loop fuel toread buffer w =
          some (.exit EXIT_FAILURE { w with stdin := rest })) := by
  intro fuel
  induction fuel with
  | zero =>
    intro toread buffer w hle
    have h0 : toread = 0 := by omega
    subst h0
    refine ⟨fun _ => ⟨w.stdin, ?_, ?_⟩, fun h => absurd h (by omega)⟩
    · simp [get_command_loop]
    · simp
  | succ fuel ih =>
    intro toread buffer w hle
    cases toread with
    | zero =>
      refine ⟨fun _ => ⟨w.stdin, ?_, ?_⟩, fun h => absurd h (by omega)⟩
      · simp [get_command_loop]
      · simp
    | succ t =>
      rcases w with ⟨fd, mb, cur, live, phys, trace, input, output, opn, grant, calls, wr⟩
      cases input with
      | nil =>
        refine ⟨fun h => absurd h (by simp [delivered]), fun _ => ⟨[], ?_⟩⟩
        simp [get_command_loop, sys_read]
      | cons c rest =>
        cases c with
        | error =>
          refine ⟨fun h => absurd h (by simp [delivered]), fun _ => ⟨rest, ?_⟩⟩
          simp [get_command_loop, sys_read]
        | data bytes =>
          cases bytes with
          | nil =>
            refine ⟨fun h => absurd h (by simp [delivered]), fun _ => ⟨rest, ?_⟩⟩
            simp [get_command_loop, sys_read]
          | cons b bs =>
            by_cases hlen : (b :: bs).length ≤ t + 1
            · have hstep : get_command_loop (fuel + 1) (t + 1) buffer
                  ⟨fd, mb, cur, live, phys, trace, Chunk.data (b :: bs) :: rest, output, opn,
                    grant, calls, wr⟩ =
                  get_command_loop fuel (t + 1 - (b :: bs).length) (buffer ++ (b :: bs))
                    ⟨fd, mb, cur, live, phys, trace, rest, output, opn, grant, calls, wr⟩ := by
                have hpos : ¬ ((bs.length : Int) + 1 < 0) := by omega
                have hnz : ¬ ((bs.length : Int) + 1 = 0) := by omega
                simp only [List.length_cons] at hlen
                simp [get_command_loop, sys_read, hlen, hpos, hnz]
              have hfuel : t + 1 - (b :: bs).length ≤ fuel := by
                simp only [List.length_cons] at hlen ⊢
                omega
              obtain ⟨ih1, ih2⟩ := ih (t + 1 - (b :: bs).length) (buffer ++ (b :: bs))
                ⟨fd, mb, cur, live, phys, trace, rest, output, opn, grant, calls, wr⟩ hfuel
              simp only [delivered]
              constructor
              · intro hd
                have hd2 : t + 1 - (b :: bs).length ≤ (delivered rest).length := by
                  simp only [List.length_append] at hd
                  omega
                obtain ⟨rest2, e1, e2⟩ := ih1 hd2
                refine ⟨rest2, ?_, ?_⟩
                · rw [hstep, e1, List.take_append_eq_append_take, List.take_of_length_le hlen,
                    List.append_assoc]
                · rw [e2, List.drop_append_eq_append_drop, List.drop_of_length_le hlen,
                    List.nil_append]
              · intro hd
                have hd2 : (delivered rest).length < t + 1 - (b :: bs).length := by
                  simp only [List.length_append] at hd
                  omega
                obtain ⟨rest2, e1⟩ := ih2 hd2
                exact ⟨rest2, by rw [hstep, e1]⟩
            · have hlt : t + 1 < (b :: bs).length := by omega
              have hstep : get_command_loop (fuel + 1) (t + 1) buffer
                  ⟨fd, mb, cur, live, phys, trace, Chunk.data (b :: bs) :: rest, output, opn,
                    grant, calls, wr⟩ =
                  some (.ret (buffer ++ (b :: bs).take (t + 1))
                    ⟨fd, mb, cur, live, phys, trace,
                      Chunk.data ((b :: bs).drop (t + 1)) :: rest, output, opn, grant, calls,
                      wr⟩) := by
                have hpos : ¬ ((t : Int) + 1 < 0) := by omega
                have hnz : ¬ ((t : Int) + 1 = 0) := by omega
                have hl2 : ¬ (bs.length ≤ t) := by
                  simp only [List.length_cons] at hlt
                  omega
                simp [get_command_loop, sys_read, hl2, hpos, hnz, get_command_loop_zero]
              simp only [delivered]
              constructor
              · intro _
                refine ⟨Chunk.data ((b :: bs).drop (t + 1)) :: rest, ?_, ?_⟩
                · rw [hstep, List.take_append_of_le_length (le_of_lt hlt)]
                · rw [List.drop_append_of_le_length (le_of_lt hlt)]
                  cases hdr : (b :: bs).drop (t + 1) with
                  | nil =>
                    have := congrArg List.length hdr
                    simp only [List.length_drop, List.length_nil] at this
                    omega
                  | cons x xs => simp [delivered]
              · intro hd
                simp only [List.length_append] at hd
                omega

theorem get_command_ok (w : World) (h : SIZEOF_COMMAND ≤ (delivered w.stdin).length) :
    ∃ rest, get_command w =
        some (.ret (Command.ofBytes ((delivered w.stdin).take SIZEOF_COMMAND))
          { w with stdin := rest }) ∧
      delivered rest = (delivered w.stdin).drop SIZEOF_COMMAND := by
  obtain ⟨rest, e1, e2⟩ :=
    (get_command_loop_spec SIZEOF_COMMAND SIZEOF_COMMAND [] w (le_refl _)).1 h
  refine ⟨rest, ?_, e2⟩
  unfold get_command
  rw [e1]
  simp

theorem get_command_eof (w : World) (h : (delivered w.stdin).length < SIZEOF_COMMAND) :
    ∃ rest, get_command w = some (.exit EXIT_FAILURE { w with stdin := rest }) := by
  obtain ⟨rest, e1⟩ :=
    (get_command_loop_spec SIZEOF_COMMAND SIZEOF_COMMAND [] w (le_refl _)).2 h
  refine ⟨rest, ?_⟩
  unfold get_command
  rw [e1]

/-! ### C10: reading one command -/

/-- C10. Whatever standard input delivers, `get_command` ends within its bound of 10
reads.  When at least 10 bytes arrive before a read returns zero or a negative count,
it returns the record made of the first 10 bytes in arrival order (`command` at
offset 0, `width` at 1, `address` at 2 to 5, `value` at 6 to 9) and leaves the bytes
after them on the stream.  Otherwise, also when some bytes of the record had arrived,
it ends the process with `EXIT_FAILURE`, and so does the loop of `main`; in both
cases nothing but standard input changed: nothing was written to standard output. -/
theorem get_command_spec (w : World) :
    (∃ o, get_command w = some o) ∧
    (SIZEOF_COMMAND ≤ (delivered w.stdin).length →
      ∃ rest, get_command w =
          some (.ret (Command.ofBytes ((delivered w.stdin).take SIZEOF_COMMAND))
            { w with stdin := rest }) ∧
        delivered rest = (delivered w.stdin).drop SIZEOF_COMMAND) ∧
    ((delivered w.stdin).length < SIZEOF_COMMAND →
      ∃ rest, get_command w = some (.exit EXIT_FAILURE { w with stdin := rest }) ∧
        EXIT_FAILURE ≠ 0 ∧
        ∀ fuel, main_loop (fuel + 1) w = some (.exit EXIT_FAILURE { w with stdin := rest })) ∧
    (∀ b0 b1 b2 b3 b4 b5 b6 b7 b8 b9 : Nat,
      Command.ofBytes [b0, b1, b2, b3, b4, b5, b6, b7, b8, b9] =
        { command := b0, width := b1, address := leValue [b2, b3, b4, b5],
          value := leValue [b6, b7, b8, b9] }) := by
  refine ⟨?_, get_command_ok w, ?_, ?_⟩
  · by_cases h : SIZEOF_COMMAND ≤ (delivered w.stdin).length
    · obtain ⟨rest, e, _⟩ := get_command_ok w h
      exact ⟨_, e⟩
    · obtain ⟨rest, e⟩ := get_command_eof w (by omega)
      exact ⟨_, e⟩
  · intro h
    obtain ⟨rest, e⟩ := get_command_eof w h
    refine ⟨rest, e, by decide, ?_⟩
    intro fuel
    simp [main_loop, e]
  · intros
    rfl

/-- C10, at concrete inputs: a record that arrives in pieces of 3, 6 and 4 bytes, and
a stream that closes after 3 bytes. -/
theorem get_command_spec_witness :
    (get_command
        (startWorld [Chunk.data [1, 8, 0], Chunk.data [16, 0, 0, 255, 0, 0],
          Chunk.data [0, 7, 7, 7]])).map
      (fun o => (o.value, o.world.stdin, o.world.stdout)) =
      some (some ⟨1, 8, 4096, 255⟩, [Chunk.data [7, 7, 7]], []) ∧
    ∃ rest, get_command (startWorld [Chunk.data [1, 8, 0], Chunk.data []]) =
      some (.exit EXIT_FAILURE { startWorld [Chunk.data [1, 8, 0], Chunk.data []] with
        stdin := rest }) :=
  ⟨by decide,
    ((get_command_spec (startWorld [Chunk.data [1, 8, 0], Chunk.data []])).2.2.1
      (by decide)).imp (fun _ h => h.1)⟩

/-! ### Responses, records on the wire, and one turn of the loop of `main` -/

theorem send_response_loop_ok :
    ∀ (fuel : Nat) (buffer : List Nat) (w : World), buffer.length ≤ fuel →
      (∀ k ∈ w.write_results, (0 : Int) < k) →
      ∃ wr, send_response_loop fuel buffer w =
          some (.ret () { w with stdout := w.stdout ++ buffer, write_results := wr }) ∧
        ∀ k ∈ wr, (0 : Int) < k := by
  intro fuel
  induction fuel with
  | zero =>
    intro buffer w hle hw
    have hb : buffer = [] := List.length_eq_zero.mp (by omega)
    subst hb
    exact ⟨w.write_results, by simp [send_response_loop], hw⟩
  | succ fuel ih =>
    intro buffer w hle hw
    cases buffer with
    | nil => exact ⟨w.write_results, by simp [send_response_loop], hw⟩
    | cons b rest =>
      rcases w with ⟨fd, mb, cur, live, phys, trace, input, output, opn, grant, calls, wr⟩
      cases wr with
      | nil =>
        refine ⟨[], ?_, by simp⟩
        have hpos : ¬ ((rest.length : Int) + 1 ≤ 0) := by omega
        simp [send_response_loop, sys_write, hpos]
      | cons k ks =>
        have hk : (0 : Int) < k := hw k (by simp)
        have hks : ∀ j ∈ ks, (0 : Int) < j := fun j hj => hw j (by simp [hj])
        have hn : 1 ≤ min k.toNat (b :: rest).length := by
          have : 1 ≤ k.toNat := by omega
          simp only [List.length_cons]
          omega
        have hlen : ((b :: rest).drop (min k.toNat (b :: rest).length)).length ≤ fuel := by
          simp only [List.length_drop, List.length_cons] at hle ⊢
          simp only [List.length_cons] at hn
          omega
        obtain ⟨wr2, e1, e2⟩ := ih ((b :: rest).drop (min k.toNat (b :: rest).length))
          ⟨fd, mb, cur, live, phys, trace, input,
            output ++ (b :: rest).take (min k.toNat (b :: rest).length), opn, grant, calls, ks⟩
          hlen hks
        refine ⟨wr2, ?_, e2⟩
        have hnot : ¬ (k ≤ 0) := by omega
        have hpos : ¬ (((min k.toNat (b :: rest).length : Nat) : Int) ≤ 0) := by omega
        have hstep : send_response_loop (fuel + 1) (b :: rest)
            ⟨fd, mb, cur, live, phys, trace, input, output, opn, grant, calls, k :: ks⟩ =
            send_response_loop fuel ((b :: rest).drop (min k.toNat (b :: rest).length))
              ⟨fd, mb, cur, live, phys, trace, input,
                output ++ (b :: rest).take (min k.toNat (b :: rest).length), opn, grant, calls,
                ks⟩ := by
          simp only [send_response_loop, sys_write, hnot, if_false, hpos, Int.toNat_ofNat]
        rw [hstep, e1]
        simp only [List.append_assoc, List.take_append_drop]

theorem leBytes_length (n : Nat) : ∀ v, (leBytes n v).length = n := by
  induction n with
  | zero => intro v; rfl
  | succ n ih => intro v; simp [leBytes, ih]

theorem send_response_ok (resp : Response) (w : World)
    (hw : ∀ k ∈ w.write_results, (0 : Int) < k) :
    ∃ wr, send_response resp w =
        some (.ret () { w with stdout := w.stdout ++ leBytes SIZEOF_RESPONSE resp.value,
                               write_results := wr }) ∧
      ∀ k ∈ wr, (0 : Int) < k :=
  send_response_loop_ok SIZEOF_RESPONSE _ w (by rw [leBytes_length]) hw

theorem toBytes_length (c : Command) : c.toBytes.length = SIZEOF_COMMAND := by
  simp [Command.toBytes, leBytes_length, SIZEOF_COMMAND]

theorem ofBytes_toBytes (c : Command) (ha : c.address < 2 ^ 32) (hv : c.value < 2 ^ 32) :
    Command.ofBytes c.toBytes = c := by
  rcases c with ⟨op, wd, a, v⟩
  simp only at ha hv
  simp only [Command.ofBytes, Command.toBytes, leBytes, leValue, List.cons_append,
    List.nil_append, List.getD_cons_zero, List.getD_cons_succ, List.drop_succ_cons,
    List.drop_zero, List.take_succ_cons, List.take_zero, List.append_nil, Command.mk.injEq,
    true_and]
  constructor <;> omega

theorem resolvable_of_first (a : Nat) (w : World) (ha : a < 2 ^ 32) (hw : Fresh w ∨ Live w)
    (hres : w.devmem_map_base ≠ MAP_FAILED ∨ 4096 ≤ a) :
    w.devmem_map_base ≠ MAP_FAILED ∨
      a &&& (ULONG_MAX - DEVMEM_WINDOW_MASK) ≠ w.devmem_current := by
  rcases hw with hf | hl
  · rcases hres with h | h
    · exact Or.inl h
    · right
      rw [window_base_eq a ha, hf.2.1]
      omega
  · exact Or.inl hl.1

theorem dispatch_ok (c : Command) (w : World) (hv : c.valid) (hi : c.inWindow)
    (hw : Fresh w ∨ Live w) (hres : w.devmem_map_base ≠ MAP_FAILED ∨ 4096 ≤ c.address)
    (hg : ∀ n off, (w.mmap_grant n off).isSome)
    (hwr : ∀ k ∈ w.write_results, (0 : Int) < k) :
    ∃ w2, dispatch c w = some (.ret () w2) ∧ Live w2 ∧ w2.stdin = w.stdin ∧
      w2.mmap_grant = w.mmap_grant ∧ (∀ k ∈ w2.write_results, (0 : Int) < k) ∧
      ((c.command = COMMAND_READ ∧ w2.phys = w.phys ∧
          w2.stdout = w.stdout ++ leBytes SIZEOF_RESPONSE (spec_load w.phys c.address c.width)) ∨
        (c.command ≠ COMMAND_READ ∧ w2.phys = spec_store w.phys c.address c.width c.value ∧
          w2.stdout = w.stdout)) := by
  obtain ⟨hop, hwd, ha, hval⟩ := hv
  have hres2 := resolvable_of_first c.address w ha hw hres
  rcases hop with hc | hc
  · obtain ⟨w1, h1, hl, _, hp, hs, ho, hwr1, hgr⟩ :=
      devmem_read_ok c.address c.width w ha hwd hi hw hres2 (fun _ => hg _ _)
    obtain ⟨wr, e1, e2⟩ := send_response_ok ⟨peekLE w.phys (List.range' c.address (c.width / 8))⟩
      w1 (by rw [hwr1]; exact hwr)
    have hd : dispatch c w = some (.ret ()
        { w1 with stdout := w1.stdout ++ leBytes SIZEOF_RESPONSE
                    (peekLE w.phys (List.range' c.address (c.width / 8))),
                  write_results := wr }) := by
      simp only [dispatch, hc, if_true, h1]
      exact e1
    refine ⟨_, hd, hl, hs, hgr, e2, Or.inl ⟨hc, hp, ?_⟩⟩
    show w1.stdout ++ _ = _
    rw [ho]
    rfl
  · have hne : c.command ≠ COMMAND_READ := by rw [hc]; decide
    obtain ⟨w1, h1, hl, _, hp, hs, ho, hwr1, hgr⟩ :=
      devmem_write_ok c.address c.width c.value w ha hwd hi hw hres2 (fun _ => hg _ _)
    refine ⟨w1, ?_, hl, hs, hgr, by rw [hwr1]; exact hwr, Or.inr ⟨hne, hp, ho⟩⟩
    have hwr0 : ¬ (COMMAND_WRITE = COMMAND_READ) := by decide
    simp only [dispatch, hc, hwr0, if_false, if_true, h1]

theorem main_loop_output :
    ∀ (cmds : List Command) (w : World) (fuel : Nat),
      (Fresh w ∨ Live w) →
      (∀ c ∈ cmds, c.valid ∧ c.inWindow) →
      (w.devmem_map_base ≠ MAP_FAILED ∨ ∀ c, cmds.head? = some c → 4096 ≤ c.address) →
      delivered w.stdin = encode cmds →
      (∀ n off, (w.mmap_grant n off).isSome) →
      (∀ k ∈ w.write_results, (0 : Int) < k) →
      cmds.length < fuel →
      ∃ w2, main_loop fuel w = some (.exit EXIT_FAILURE w2) ∧
        w2.stdout = w.stdout ++ spec_output w.phys cmds := by
  intro cmds
  induction cmds with
  | nil =>
    intro w fuel _ _ _ hin _ _ hfuel
    obtain ⟨f, rfl⟩ : ∃ f, fuel = f + 1 := ⟨fuel - 1, by simp at hfuel; omega⟩
    have hlt : (delivered w.stdin).length < SIZEOF_COMMAND := by
      rw [hin]
      decide
    obtain ⟨rest, e⟩ := get_command_eof w hlt
    have hm : main_loop (f + 1) w = some (.exit EXIT_FAILURE { w with stdin := rest }) := by
      simp [main_loop, e]
    exact ⟨_, hm, by simp [spec_output]⟩
  | cons c cs ih =>
    intro w fuel hw hvalid hfirst hin hg hwr hfuel
    obtain ⟨f, rfl⟩ : ∃ f, fuel = f + 1 := ⟨fuel - 1, by simp at hfuel; omega⟩
    have hcv := hvalid c (by simp)
    have hge : SIZEOF_COMMAND ≤ (delivered w.stdin).length := by
      rw [hin]
      simp [encode, toBytes_length]
    obtain ⟨rest, e1, e2⟩ := get_command_ok w hge
    have htake : (delivered w.stdin).take SIZEOF_COMMAND = c.toBytes := by
      rw [hin]
      simp only [encode]
      rw [List.take_append_of_le_length (by rw [toBytes_length]), ← toBytes_length c,
        List.take_length]
    have hdrop : delivered rest = encode cs := by
      rw [e2, hin]
      simp only [encode]
      rw [← toBytes_length c, List.drop_left]
    rw [htake, ofBytes_toBytes c hcv.1.2.2.1 hcv.1.2.2.2] at e1
    have hw1 : Fresh { w with stdin := rest } ∨ Live { w with stdin := rest } := hw
    have hres1 : ({ w with stdin := rest } : World).devmem_map_base ≠ MAP_FAILED ∨
        4096 ≤ c.address := by
      rcases hfirst with h | h
      · exact Or.inl h
      · exact Or.inr (h c rfl)
    obtain ⟨w2, hd, hl2, hs2, hg2, hwr2, hout⟩ :=
      dispatch_ok c { w with stdin := rest } hcv.1 hcv.2 hw1 hres1 hg hwr
    have hin2 : delivered w2.stdin = encode cs := by rw [hs2]; exact hdrop
    obtain ⟨w3, hm, ho3⟩ := ih w2 f (Or.inr hl2) (fun x hx => hvalid x (by simp [hx]))
      (Or.inl hl2.1) hin2 (by rw [hg2]; exact hg) hwr2
      (by simp only [List.length_cons] at hfuel; omega)
    refine ⟨w3, ?_, ?_⟩
    · simp only [main_loop, e1, hd]
      exact hm
    · rw [ho3]
      rcases hout with ⟨hc, hp, ho⟩ | ⟨hc, hp, ho⟩
      · rw [ho, hp]
        simp only [spec_output, hc, if_true, List.append_assoc]
      · rw [ho, hp]
        simp only [spec_output, hc, if_false]

/-! ### C8: the output of a run -/

/-- C8, as amended.  Let `main` start in a process without mappings, with a memory
device that can be opened, a kernel that grants every mapping and a standard output
that accepts at least one byte per `write`.  Let standard input deliver, in pieces of
any sizes, the records of a sequence of valid commands, each of which accesses bytes
inside one 4096-byte window, the first of them at an address not below 4096, and
then end.  Then the run ends (with `EXIT_FAILURE`, at the end of the stream) and the
bytes written to standard output are, in command order, one 4-byte response per read
command holding the 8, 16 or 32 bits loaded at its address, zero-extended, and
nothing for a write command. -/
theorem main_output (w : World) (cmds : List Command) (fuel : Nat)
    (hopen : 0 ≤ w.open_result) (hlive : w.live = [])
    (hvalid : ∀ c ∈ cmds, c.valid ∧ c.inWindow)
    (hfirst : ∀ c, cmds.head? = some c → 4096 ≤ c.address)
    (hin : delivered w.stdin = encode cmds)
    (hgrant : ∀ n off, (w.mmap_grant n off).isSome)
    (hwrite : ∀ k ∈ w.write_results, (0 : Int) < k)
    (hfuel : cmds.length < fuel) :
    ∃ w2, main fuel w = some (.exit EXIT_FAILURE w2) ∧
      w2.stdout = w.stdout ++ spec_output w.phys cmds := by
  have ho : devmem_open w = .ret ()
      { w with devmem_fd := w.open_result, devmem_map_base := MAP_FAILED,
               devmem_current := 0 } := by
    have hn : ¬ (w.open_result < 0) := by omega
    simp [devmem_open, hn]
  have hf : Fresh { w with devmem_fd := w.open_result, devmem_map_base := MAP_FAILED,
                           devmem_current := 0 } := ⟨rfl, rfl, hlive⟩
  obtain ⟨w2, h2, h3⟩ := main_loop_output cmds _ fuel (Or.inl hf) hvalid (Or.inr hfirst) hin
    hgrant hwrite hfuel
  refine ⟨w2, ?_, h3⟩
  simp only [main, ho]
  exact h2

/-- C8 as amended, at a concrete input: an 8-bit write of 0xFF at 0x1000, an 8-bit
read at 0x1000 and a 32-bit read at 0x2000, arriving in three pieces that do not
follow the record boundaries.  The output is the response 0x000000FF followed by the
response holding the four bytes at 0x2000: two responses, none for the write. -/
theorem main_output_witness :
    ∃ w2,
      main 4
          (startWorld
            [Chunk.data [1, 8, 0], Chunk.data [0x10, 0, 0, 0xFF, 0, 0, 0, 0, 8, 0, 0x10],
              Chunk.data [0, 0, 0, 0, 0, 0, 0, 32, 0, 0x20, 0, 0, 0, 0, 0, 0]]) =
        some (.exit EXIT_FAILURE w2) ∧
      w2.stdout = [0xFF, 0, 0, 0, 0, 1, 2, 3] :=
  (main_output
      (startWorld
        [Chunk.data [1, 8, 0], Chunk.data [0x10, 0, 0, 0xFF, 0, 0, 0, 0, 8, 0, 0x10],
          Chunk.data [0, 0, 0, 0, 0, 0, 0, 32, 0, 0x20, 0, 0, 0, 0, 0, 0]])
      [⟨COMMAND_WRITE, 8, 0x1000, 0xFF⟩, ⟨COMMAND_READ, 8, 0x1000, 0⟩,
        ⟨COMMAND_READ, 32, 0x2000, 0⟩]
      4 (by decide) rfl (by decide) (fun c h => by cases h; decide) (by decide)
      (fun _ _ => rfl) (by decide) (by decide)).imp
    (fun _ h => ⟨h.1, h.2.trans (by decide)⟩)

/-- C8 as stated fails: the single valid command "read 32 bits at address 8190"
accesses two bytes past the end of the 4096-byte window mapped for it.  The run makes
an access outside every mapping and writes nothing, where the claim asks for one
4-byte response. -/
theorem main_output_across_window :
    (⟨COMMAND_READ, 32, 8190, 0⟩ : Command).valid ∧
    (main 3 (startWorld [Chunk.data (encode [⟨COMMAND_READ, 32, 8190, 0⟩])])).map
        (fun o => (o.isFault, o.world.stdout)) = some (true, []) ∧
    spec_output (startWorld []).phys [⟨COMMAND_READ, 32, 8190, 0⟩] = [254, 255, 0, 1] := by
  decide

end Regdump
